import Mathlib

/-!
Verification of the module/version control-plane client
(google.appengine.api.modules.modules): a shallow embedding of the
dual-backend facade, the default-version resolver and the hostname
resolver, with theorems checking the specification's claims.

Transport I/O is modelled by explicit records of outcomes
(`AdminTransport`, `LegacyTransport`): each field holds the structured
response or transport-level failure the corresponding remote read or
write would produce.  Python float allocations are modelled as rationals
(the source only compares allocations with `==`, `>` and `<`, and every
allocation literal the claims concern is exactly representable).
Python `str`-vs-`int` argument dynamics for the `instance` argument are
kept (`PyInst`), because `".".join` raises `TypeError` on a non-`str`
part and `if instance:` is a truthiness test, both observable.
-/

namespace ModulesApi

/-- The public error taxonomy of the facade.  `genericError` is the base
`Error` class, `typeError` models Python's built-in `TypeError` (raised
for example by `".".join` on a non-`str` part, or by comparing a `str`
with `None`). -/
inductive Err where
  | genericError
  | invalidModule
  | invalidVersion
  | invalidInstances
  | unexpectedState
  | transientError
  | typeError
  deriving DecidableEq, Repr

/-- A transport-level HTTP failure, carrying the response status code
(`e.resp.status` in the source). -/
structure HttpErr where
  status : Nat
  deriving DecidableEq, Repr

/-- `_raise_error`: the admin backend's HTTP-status driven error mapper.
400 becomes InvalidInstances, 404 InvalidVersion, 500 and above
TransientError, anything else the generic Error. -/
def raise_error (e : HttpErr) : Err :=
  if e.status = 400 then .invalidInstances
  else if e.status = 404 then .invalidVersion
  else if 500 ≤ e.status then .transientError
  else .genericError

/-- `ModulesServiceError` application error codes of the legacy RPC
protocol.  `other` stands for any unanticipated numeric code. -/
inductive ACode where
  | invalid_module
  | invalid_version
  | invalid_instances
  | transient_error
  | unexpected_state
  | other (code : Nat)
  deriving DecidableEq, Repr

/-- `apiproxy_errors.ApplicationError` as far as the checker reads it. -/
structure ApplicationError where
  application_error : ACode
  deriving DecidableEq, Repr

/-- `_MODULE_SERVICE_ERROR_MAP`: application error code to public error
class. -/
def MODULE_SERVICE_ERROR_MAP : ACode → Option Err
  | .invalid_instances => some .invalidInstances
  | .invalid_module => some .invalidModule
  | .invalid_version => some .invalidVersion
  | .transient_error => some .transientError
  | .unexpected_state => some .unexpectedState
  | .other _ => none

/-- `_CheckAsyncResult`: classify one RPC outcome.  Codes on the ignored
list resolve successfully (the condition is only logged); codes on the
expected list are mapped through `MODULE_SERVICE_ERROR_MAP`; everything
else surfaces as the generic Error. -/
def CheckAsyncResult (result : Except ApplicationError Unit)
    (expected ignored : List ACode) : Except Err Unit :=
  match result with
  | .ok _ => .ok ()
  | .error e =>
    if e.application_error ∈ ignored then .ok ()
    else if e.application_error ∈ expected then
      match MODULE_SERVICE_ERROR_MAP e.application_error with
      | some mapped => .error mapped
      | none => .error .genericError
    else .error .genericError

/-- One legacy RPC outcome per operation.  Request fields (module,
version, instance) are forwarded to the remote side verbatim and do not
change the local result mapping, so they are not replicated here. -/
structure LegacyTransport where
  getModulesRpc : Except ApplicationError (List String)
  getVersionsRpc : Except ApplicationError (List String)
  getDefaultVersionRpc : Except ApplicationError String
  getNumInstancesRpc : Except ApplicationError Int
  setNumInstancesRpc : Except ApplicationError Unit
  startModuleRpc : Except ApplicationError Unit
  stopModuleRpc : Except ApplicationError Unit
  getHostnameRpc : Except ApplicationError String

/-- The common result-hook shape of every legacy operation: run
`CheckAsyncResult` on the RPC outcome with the operation's two code
lists, then read the response field.  When an ignored error was
swallowed the response was never filled in, so the hook returns the
protobuf field's default value (`emptyResp`). -/
def legacyCall {α : Type} (rpc : Except ApplicationError α)
    (expected ignored : List ACode) (emptyResp : α) : Except Err α :=
  match rpc with
  | .ok v => .ok v
  | .error e =>
    match CheckAsyncResult (.error e) expected ignored with
    | .ok _ => .ok emptyResp
    | .error err => .error err

/-- Legacy `get_modules`: no expected codes, no ignored codes. -/
def get_modules_legacy (lt : LegacyTransport) : Except Err (List String) :=
  legacyCall lt.getModulesRpc [] [] []

/-- Legacy `get_versions`: INVALID_MODULE and TRANSIENT_ERROR mapped. -/
def get_versions_legacy (lt : LegacyTransport) (_module : Option String) :
    Except Err (List String) :=
  legacyCall lt.getVersionsRpc [.invalid_module, .transient_error] [] []

/-- Legacy `get_default_version`: INVALID_MODULE and INVALID_VERSION
mapped. -/
def get_default_version_legacy (lt : LegacyTransport) (_module : Option String) :
    Except Err String :=
  legacyCall lt.getDefaultVersionRpc [.invalid_module, .invalid_version] [] ""

/-- Legacy `get_num_instances`: INVALID_VERSION mapped. -/
def get_num_instances_legacy (lt : LegacyTransport)
    (_module _version : Option String) : Except Err Int :=
  legacyCall lt.getNumInstancesRpc [.invalid_version] [] 0

/-- Legacy `set_num_instances`: INVALID_VERSION and TRANSIENT_ERROR
mapped.  (The `isinstance` integer check happens before this point and
is modelled at the dispatcher.) -/
def set_num_instances_async_legacy (lt : LegacyTransport) (_instances : Int)
    (_module _version : Option String) : Except Err Unit :=
  legacyCall lt.setNumInstancesRpc [.invalid_version, .transient_error] [] ()

/-- Legacy `start_version`: INVALID_VERSION and TRANSIENT_ERROR mapped,
UNEXPECTED_STATE ignored (already started: logged and swallowed). -/
def start_version_async_legacy (lt : LegacyTransport)
    (_module _version : Option String) : Except Err Unit :=
  legacyCall lt.startModuleRpc [.invalid_version, .transient_error]
    [.unexpected_state] ()

/-- Legacy `stop_version`: INVALID_VERSION and TRANSIENT_ERROR mapped,
UNEXPECTED_STATE ignored (already stopped: logged and swallowed). -/
def stop_version_async_legacy (lt : LegacyTransport)
    (_module _version : Option String) : Except Err Unit :=
  legacyCall lt.stopModuleRpc [.invalid_version, .transient_error]
    [.unexpected_state] ()

/-- The `app.get` response as far as `get_hostname` reads it:
`response.get('defaultHostname')`, absent when the key is missing. -/
structure AppResp where
  defaultHostname : Option String

/-- The `manualScaling` sub-dictionary of a version's metadata:
`instances` may be missing (read with `.get('instances', 0)`). -/
structure ManualScaling where
  instances : Option Int

/-- A version's full metadata as far as the hostname resolver reads it:
whether the `manualScaling` key is present, and its contents. -/
structure VersionDetails where
  manualScaling : Option ManualScaling

/-- The `services.get` response as far as `get_default_version` reads
it: `response.get('split', {}).get('allocations')`, a version-name to
allocation mapping in dictionary (insertion) order, or absent. -/
structure SplitResp where
  allocations : Option (List (String × ℚ))

/-- The body of an admin-API `versions.patch` call. -/
inductive PatchBody where
  | manualScalingInstances (n : Int)
  | servingStatus (s : String)
  deriving DecidableEq, Repr

/-- Outcomes of the admin backend's REST reads and writes, plus the
process execution identity the facade reads from the environment.
`gaeService` models `os.environ.get('GAE_SERVICE', 'default')`;
`currentModule`/`currentVersion` model `get_current_module_name()` /
`get_current_version_name()` (assumed set, as on a real instance). -/
structure AdminTransport where
  servicesList : Except HttpErr (List String)
  appsGet : Except HttpErr AppResp
  serviceGet : String → Except HttpErr SplitResp
  versionsList : String → Except HttpErr (List String)
  versionGet : String → String → Except HttpErr VersionDetails
  patchVersion : String → String → PatchBody → Except HttpErr Unit
  gaeService : String
  currentModule : String
  currentVersion : String

/-- Python string truthiness defaulting (`module or current`): an absent
or empty option falls back to the default. -/
def pyOr (o : Option String) (d : String) : String :=
  match o with
  | some s => if s = "" then d else s
  | none => d

/-- Admin `get_modules`: list the app's services; a 404 is reported as
the generic Error ("Project not found"), other failures go through
`raise_error`. -/
def get_modules_admin (t : AdminTransport) : Except Err (List String) :=
  match t.servicesList with
  | .ok svcs => .ok svcs
  | .error e => if e.status = 404 then .error .genericError else .error (raise_error e)

/-- Admin `get_versions`: list a service's versions; 404 becomes
InvalidModule, other failures go through `raise_error`. -/
def get_versions_admin (t : AdminTransport) (module : Option String) :
    Except Err (List String) :=
  let m := pyOr module t.gaeService
  match t.versionsList m with
  | .ok vs => .ok vs
  | .error e => if e.status = 404 then .error .invalidModule else .error (raise_error e)

/-- The scan over `allocations.items()` in `get_default_version`, with
accumulator `(maxAlloc, retVersion)` starting at `(-1, None)`.  An entry
with allocation exactly 1 returns immediately.  The outer `none` result
marks the one crashing path of the source: comparing a version name with
`None` (reachable only when every allocation seen so far is below the
initial -1 sentinel, impossible for a real traffic split). -/
def gdvLoop : List (String × ℚ) → ℚ → Option String → Option (Option String)
  | [], _, ret => some ret
  | (version, allocation) :: rest, maxAlloc, ret =>
    if allocation = 1 then some (some version)
    else if maxAlloc < allocation then gdvLoop rest allocation (some version)
    else if allocation = maxAlloc then
      match ret with
      | some r =>
        if version < r then gdvLoop rest maxAlloc (some version)
        else gdvLoop rest maxAlloc ret
      | none => none
    else gdvLoop rest maxAlloc ret

/-- Admin `get_default_version`: fetch the service, then resolve the
default version from its traffic split.  404 on the read becomes
InvalidModule; an empty or absent allocation map fails with
InvalidVersion. -/
def get_default_version_admin (t : AdminTransport) (module : Option String) :
    Except Err String :=
  let m := pyOr module t.gaeService
  match t.serviceGet m with
  | .error e => if e.status = 404 then .error .invalidModule else .error (raise_error e)
  | .ok resp =>
    match gdvLoop (resp.allocations.getD []) (-1) none with
    | none => .error .typeError
    | some none => .error .invalidVersion
    | some (some v) => .ok v

/-- The Python value passed as the `instance` argument: a `str` or an
`int` (other types are out of the model). -/
inductive PyInst where
  | str (s : String)
  | int (n : Int)
  deriving DecidableEq, Repr

/-- Decimal digits to a number, `none` unless the characters are one or
more digits. -/
def natOfDigits (cs : List Char) : Option Nat :=
  if cs.isEmpty then none
  else if cs.all Char.isDigit then
    some (cs.foldl (fun a c => 10 * a + (c.toNat - 48)) 0)
  else none

/-- The modelled fragment of Python's `int(str)`: an optional sign
followed by decimal digits (whitespace and underscore forms are outside
the model; no claim exercises them). -/
def pyParseInt (s : String) : Option Int :=
  match s.data with
  | '-' :: rest => (natOfDigits rest).map (fun n => -(n : Int))
  | '+' :: rest => (natOfDigits rest).map (fun n => (n : Int))
  | cs => (natOfDigits cs).map (fun n => (n : Int))

/-- Python `int(instance)`: an `int` is returned as is, a `str` is
parsed; `none` models the ValueError. -/
def pyIntOf : PyInst → Option Int
  | .int n => some n
  | .str s => pyParseInt s

/-- Python truthiness of the instance value (`if instance:`): a
non-empty string, or a non-zero integer. -/
def truthy : PyInst → Bool
  | .str s => s ≠ ""
  | .int n => n ≠ 0

/-- A part handed to `".".join` in `_construct_hostname`: an ordinary
string, the raw `instance` argument, or the possibly-absent
`defaultHostname`. -/
inductive HostPart where
  | str (s : String)
  | inst (i : PyInst)
  | opt (o : Option String)

/-- The string a join part contributes, or `none` when it is not a
Python `str` (an `int` instance or a missing default hostname), in
which case `".".join` raises TypeError. -/
def partStr : HostPart → Option String
  | .str s => some s
  | .inst (.str s) => some s
  | .inst (.int _) => none
  | .opt o => o

/-- `".".join` as used by `_construct_hostname`: TypeError on any
non-`str` part. -/
def joinDot : List String → String
  | [] => ""
  | [s] => s
  | s :: rest => s ++ "." ++ joinDot rest

/-- `_construct_hostname`: dot-join the parts, raising TypeError when a
part is not a string. -/
def construct_hostname (parts : List HostPart) : Except Err String :=
  match parts.mapM partStr with
  | some ss => .ok (joinDot ss)
  | none => .error .typeError

/-- The instance validation at the top of the admin `get_hostname`:
`int(instance)` must succeed and be non-negative, else
InvalidInstances. -/
def validateInstance (instanceArg : Option PyInst) : Except Err Unit :=
  match instanceArg with
  | none => .ok ()
  | some inst =>
    match pyIntOf inst with
    | none => .error .invalidInstances
    | some instance_id =>
      if instance_id < 0 then .error .invalidInstances else .ok ()

/-- Admin `get_hostname`, line for line: validate the instance; fetch
the service list (via `get_modules`, whose raised errors are domain
errors and pass through) and the app's default hostname (raw HTTP
failures here go through `raise_error`); check the target module is
known; then the single-service shortcut, the instance-bounded branch
(404 on the version read becomes InvalidModule), the
no-explicit-version branch (via `get_versions`, whose raised errors
pass through), and finally the trusted explicit-version join. -/
def get_hostname_admin (t : AdminTransport) (module version : Option String)
    (instanceArg : Option PyInst) : Except Err String :=
  match validateInstance instanceArg with
  | .error e => .error e
  | .ok _ =>
    match get_modules_admin t with
    | .error e => .error e
    | .ok services =>
      match t.appsGet with
      | .error e => .error (raise_error e)
      | .ok resp =>
        let default_hostname := resp.defaultHostname
        let req_module := pyOr module t.currentModule
        let req_version := pyOr version t.currentVersion
        if req_module ∉ services then .error .invalidModule
        else if services.length = 1 ∧ services[0]? = some "default" then
          if req_module ≠ "default" then .error .invalidModule
          else
            match instanceArg with
            | some inst =>
              if truthy inst then
                construct_hostname [.inst inst, .str req_version, .opt default_hostname]
              else construct_hostname [.str req_version, .opt default_hostname]
            | none => construct_hostname [.str req_version, .opt default_hostname]
        else
          match instanceArg with
          | some inst =>
            match t.versionGet req_module req_version with
            | .error e =>
              if e.status = 404 then .error .invalidModule
              else .error (raise_error e)
            | .ok version_details =>
              match version_details.manualScaling with
              | none => .error .invalidInstances
              | some ms =>
                let num_instances : Int := ms.instances.getD 0
                match pyIntOf inst with
                | some i =>
                  if num_instances ≤ i then .error .invalidInstances
                  else construct_hostname
                    [.inst inst, .str req_version, .str req_module,
                     .opt default_hostname]
                | none => .error .invalidInstances
          | none =>
            match version with
            | none =>
              match get_versions_admin t (some req_module) with
              | .error e => .error e
              | .ok versions_list =>
                if req_version ∈ versions_list then
                  construct_hostname
                    [.str req_version, .str req_module, .opt default_hostname]
                else construct_hostname [.str req_module, .opt default_hostname]
            | some v =>
              construct_hostname [.str v, .str req_module, .opt default_hostname]

/-- Legacy `get_hostname`: the request (module, version, `str(instance)`
when the instance is truthy or equal to 0) is forwarded to the RPC; the
result hook maps INVALID_MODULE and INVALID_INSTANCES, ignores nothing.
No local instance validation happens on this path. -/
def get_hostname_legacy (lt : LegacyTransport) (_module _version : Option String)
    (_instanceArg : Option PyInst) : Except Err String :=
  legacyCall lt.getHostnameRpc [.invalid_module, .invalid_instances] [] ""

/-- Admin `start_version`: default module/version from the current
identity (`is None` checks), then patch `servingStatus` to SERVING;
HTTP failures go through `raise_error`. -/
def start_version_admin (t : AdminTransport) (module version : Option String) :
    Except Err Unit :=
  let m := module.getD t.currentModule
  let v := version.getD t.currentVersion
  match t.patchVersion m v (.servingStatus "SERVING") with
  | .ok _ => .ok ()
  | .error e => .error (raise_error e)

/-- Admin `stop_version`: like `start_version` with STOPPED. -/
def stop_version_admin (t : AdminTransport) (module version : Option String) :
    Except Err Unit :=
  let m := module.getD t.currentModule
  let v := version.getD t.currentVersion
  match t.patchVersion m v (.servingStatus "STOPPED") with
  | .ok _ => .ok ()
  | .error e => .error (raise_error e)

/-- The process-wide backend selector (`MODULES_USE_ADMIN_API`). -/
inductive BackendMode where
  | legacy
  | admin
  deriving DecidableEq, Repr

/-- Public `get_hostname`: the facade dispatches on the mode flag. -/
def get_hostname (mode : BackendMode) (lt : LegacyTransport) (t : AdminTransport)
    (module version : Option String) (instanceArg : Option PyInst) :
    Except Err String :=
  match mode with
  | .legacy => get_hostname_legacy lt module version instanceArg
  | .admin => get_hostname_admin t module version instanceArg

/-- Public `start_version` (the blocking form awaits the async result,
which carries the same value). -/
def start_version (mode : BackendMode) (lt : LegacyTransport) (t : AdminTransport)
    (module version : Option String) : Except Err Unit :=
  match mode with
  | .legacy => start_version_async_legacy lt module version
  | .admin => start_version_admin t module version

/-- Public `stop_version`. -/
def stop_version (mode : BackendMode) (lt : LegacyTransport) (t : AdminTransport)
    (module version : Option String) : Except Err Unit :=
  match mode with
  | .legacy => stop_version_async_legacy lt module version
  | .admin => stop_version_admin t module version


/-- The leader-update step of the scan: a strictly larger allocation
takes over; an equal allocation takes over only with a smaller name. -/
def pick (acc p : String × ℚ) : String × ℚ :=
  if acc.2 < p.2 then p
  else if p.2 = acc.2 ∧ p.1 < acc.1 then p
  else acc

theorem pick_eq_or (acc p : String × ℚ) : pick acc p = acc ∨ pick acc p = p := by
  unfold pick; split_ifs <;> simp

theorem pick_snd_ge_left (acc p : String × ℚ) : acc.2 ≤ (pick acc p).2 := by
  unfold pick; split_ifs with h1 h2
  · exact le_of_lt h1
  · exact le_of_eq h2.1.symm
  · exact le_refl _

theorem pick_snd_ge_right (acc p : String × ℚ) : p.2 ≤ (pick acc p).2 := by
  unfold pick; split_ifs with h1 h2
  · exact le_refl _
  · exact le_refl _
  · exact le_of_not_lt h1

theorem pick_fst_le_left (acc p : String × ℚ) :
    (pick acc p).2 = acc.2 → (pick acc p).1 ≤ acc.1 := by
  unfold pick; split_ifs with h1 h2
  · intro h; exact absurd (h ▸ h1) (lt_irrefl _)
  · intro _; exact le_of_lt h2.2
  · intro _; exact le_refl _

theorem pick_fst_le_right (acc p : String × ℚ) :
    (pick acc p).2 = p.2 → (pick acc p).1 ≤ p.1 := by
  unfold pick; split_ifs with h1 h2
  · intro _; exact le_refl _
  · intro _; exact le_refl _
  · intro h
    by_contra hlt
    exact h2 ⟨h.symm, lt_of_not_le hlt⟩

/-- The left fold of `pick` lands on an element (or the seed) whose
allocation dominates everything scanned, with the smallest name among
ties. -/
theorem foldl_pick_spec (al : List (String × ℚ)) (acc : String × ℚ) :
    (List.foldl pick acc al = acc ∨ List.foldl pick acc al ∈ al) ∧
    acc.2 ≤ (List.foldl pick acc al).2 ∧
    ((List.foldl pick acc al).2 = acc.2 → (List.foldl pick acc al).1 ≤ acc.1) ∧
    (∀ p ∈ al, p.2 ≤ (List.foldl pick acc al).2 ∧
      (p.2 = (List.foldl pick acc al).2 → (List.foldl pick acc al).1 ≤ p.1)) := by
  induction al generalizing acc with
  | nil => simp
  | cons q rest ih =>
    simp only [List.foldl_cons]
    obtain ⟨hmem, hge, hle, hall⟩ := ih (pick acc q)
    have hq2 : q.2 ≤ (List.foldl pick (pick acc q) rest).2 :=
      le_trans (pick_snd_ge_right acc q) hge
    have ha2 : acc.2 ≤ (List.foldl pick (pick acc q) rest).2 :=
      le_trans (pick_snd_ge_left acc q) hge
    refine ⟨?_, ha2, ?_, ?_⟩
    · rcases hmem with h | h
      · rcases pick_eq_or acc q with h2 | h2
        · left; rw [h, h2]
        · right; rw [h, h2]; exact List.mem_cons_self _ _
      · right; exact List.mem_cons_of_mem _ h
    · intro h
      have hpa : (pick acc q).2 = acc.2 :=
        le_antisymm (h ▸ hge) (pick_snd_ge_left acc q)
      have h1 : (List.foldl pick (pick acc q) rest).1 ≤ (pick acc q).1 :=
        hle (h.trans hpa.symm)
      exact le_trans h1 (pick_fst_le_left acc q hpa)
    · intro p hp
      rcases List.mem_cons.mp hp with rfl | hp
      · refine ⟨hq2, fun h => ?_⟩
        have hpq : (pick acc p).2 = p.2 :=
          le_antisymm (h ▸ hge) (pick_snd_ge_right acc p)
        have h1 : (List.foldl pick (pick acc p) rest).1 ≤ (pick acc p).1 :=
          hle (h.symm ▸ hpq.symm ▸ rfl)
        exact le_trans h1 (pick_fst_le_right acc p hpq)
      · exact hall p hp

/-- Once a leader exists and no remaining allocation is exactly 1, the
scan is the `pick` fold. -/
theorem gdvLoop_eq_foldl (al : List (String × ℚ)) :
    ∀ (maxA : ℚ) (r : String), (∀ p ∈ al, p.2 ≠ 1) →
    gdvLoop al maxA (some r) = some (some (List.foldl pick (r, maxA) al).1) := by
  induction al with
  | nil => intro maxA r _; rfl
  | cons q rest ih =>
    intro maxA r h1
    obtain ⟨v, a⟩ := q
    have ha : a ≠ 1 := h1 (v, a) (List.mem_cons_self _ _)
    have hrest : ∀ p ∈ rest, p.2 ≠ 1 := fun p hp => h1 p (List.mem_cons_of_mem _ hp)
    by_cases hgt : maxA < a
    · have hstep : gdvLoop ((v, a) :: rest) maxA (some r) = gdvLoop rest a (some v) := by
        simp [gdvLoop, ha, hgt]
      have hpick : pick (r, maxA) (v, a) = (v, a) := by
        unfold pick; simp [hgt]
      rw [hstep, ih a v hrest, List.foldl_cons, hpick]
    · by_cases heq : a = maxA
      · have ha' : maxA ≠ 1 := heq ▸ ha
        by_cases hlt : v < r
        · have hstep : gdvLoop ((v, a) :: rest) maxA (some r) = gdvLoop rest maxA (some v) := by
            simp [gdvLoop, ha, ha', hgt, heq, hlt]
          have hpick : pick (r, maxA) (v, a) = (v, maxA) := by
            unfold pick; simp [hgt, heq, hlt]
          rw [hstep, ih maxA v hrest, List.foldl_cons, hpick]
        · have hstep : gdvLoop ((v, a) :: rest) maxA (some r) = gdvLoop rest maxA (some r) := by
            simp [gdvLoop, ha, ha', hgt, heq, hlt]
          have hpick : pick (r, maxA) (v, a) = (r, maxA) := by
            unfold pick; simp [hgt, heq, hlt]
          rw [hstep, ih maxA r hrest, List.foldl_cons, hpick]
      · have hstep : gdvLoop ((v, a) :: rest) maxA (some r) = gdvLoop rest maxA (some r) := by
          simp [gdvLoop, ha, hgt, heq]
        have hpick : pick (r, maxA) (v, a) = (r, maxA) := by
          unfold pick; simp [hgt]
          intro h; exact absurd h heq
        rw [hstep, ih maxA r hrest, List.foldl_cons, hpick]


/-- When some entry's allocation is exactly 1 and all allocations are
non-negative (the TrafficSplit invariant), the scan returns the first
such entry, whatever came before it. -/
theorem gdvLoop_find_one (al : List (String × ℚ)) :
    ∀ (maxA : ℚ) (ret : Option String), (∀ p ∈ al, 0 ≤ p.2) →
    (ret = none → maxA = -1) → (∃ p ∈ al, p.2 = 1) →
    ∃ p, al.find? (fun q => decide (q.2 = 1)) = some p ∧
      gdvLoop al maxA ret = some (some p.1) := by
  induction al with
  | nil => intro maxA ret _ _ hex; simp at hex
  | cons q rest ih =>
    intro maxA ret hnn hinv hex
    obtain ⟨v, a⟩ := q
    by_cases ha : a = 1
    · refine ⟨(v, a), ?_, ?_⟩
      · simp [List.find?, ha]
      · simp [gdvLoop, ha]
    · have hex' : ∃ p ∈ rest, p.2 = 1 := by
        rcases hex with ⟨p, hp, hp1⟩
        rcases List.mem_cons.mp hp with rfl | hp
        · exact absurd hp1 ha
        · exact ⟨p, hp, hp1⟩
      have hnn' : ∀ p ∈ rest, 0 ≤ p.2 := fun p hp => hnn p (List.mem_cons_of_mem _ hp)
      have hfind : ((v, a) :: rest).find? (fun q => decide (q.2 = 1))
          = rest.find? (fun q => decide (q.2 = 1)) := by
        simp [List.find?, ha]
      rw [hfind]
      cases hret : ret with
      | none =>
        have ha0 : (0:ℚ) ≤ a := hnn (v, a) (List.mem_cons_self _ _)
        have hgt : maxA < a := by rw [hinv hret]; linarith
        have hstep : gdvLoop ((v, a) :: rest) maxA none = gdvLoop rest a (some v) := by
          simp [gdvLoop, ha, hgt]
        rw [hstep]; exact ih a (some v) hnn' (fun h => by simp at h) hex'
      | some r =>
        by_cases hgt : maxA < a
        · have hstep : gdvLoop ((v, a) :: rest) maxA (some r) = gdvLoop rest a (some v) := by
            simp [gdvLoop, ha, hgt]
          rw [hstep]; exact ih a (some v) hnn' (fun h => by simp at h) hex'
        · by_cases heq : a = maxA
          · have ha' : maxA ≠ 1 := heq ▸ ha
            by_cases hlt : v < r
            · have hstep : gdvLoop ((v, a) :: rest) maxA (some r) = gdvLoop rest maxA (some v) := by
                simp [gdvLoop, ha, ha', hgt, heq, hlt]
              rw [hstep]; exact ih maxA (some v) hnn' (fun h => by simp at h) hex'
            · have hstep : gdvLoop ((v, a) :: rest) maxA (some r) = gdvLoop rest maxA (some r) := by
                simp [gdvLoop, ha, ha', hgt, heq, hlt]
              rw [hstep]; exact ih maxA (some r) hnn' (fun h => by simp at h) hex'
          · have hstep : gdvLoop ((v, a) :: rest) maxA (some r) = gdvLoop rest maxA (some r) := by
              simp [gdvLoop, ha, hgt, heq]
            rw [hstep]; exact ih maxA (some r) hnn' (fun h => by simp at h) hex'

/-- Unfolding of the admin default-version resolver once the service
read returned an allocation map. -/
theorem get_default_version_admin_ok (t : AdminTransport) (m : String)
    (resp : SplitResp) (hm : m ≠ "") (hresp : t.serviceGet m = .ok resp) :
    get_default_version_admin t (some m) =
      match gdvLoop (resp.allocations.getD []) (-1) none with
      | none => .error .typeError
      | some none => .error .invalidVersion
      | some (some v) => .ok v := by
  have hpy : pyOr (some m) t.gaeService = m := by simp [pyOr, hm]
  show (match t.serviceGet (pyOr (some m) t.gaeService) with
    | Except.error e => if e.status = 404 then Except.error Err.invalidModule
        else Except.error (raise_error e)
    | Except.ok resp =>
      match gdvLoop (resp.allocations.getD []) (-1) none with
      | none => Except.error Err.typeError
      | some none => Except.error Err.invalidVersion
      | some (some v) => Except.ok v) = _
  rw [hpy, hresp]

/-- Claim C1: with a non-empty allocation map, non-negative allocations
and none exactly 1, the resolver returns the name of an entry carrying
the maximum allocation, the lexicographically smallest name among the
tied entries. -/
theorem getDefaultVersion_max_lex_tiebreak
    (t : AdminTransport) (m : String) (al : List (String × ℚ))
    (hm : m ≠ "") (hresp : t.serviceGet m = .ok ⟨some al⟩)
    (hne : al ≠ []) (hnn : ∀ p ∈ al, 0 ≤ p.2) (h1 : ∀ p ∈ al, p.2 ≠ 1) :
    ∃ r a, get_default_version_admin t (some m) = .ok r ∧ (r, a) ∈ al ∧
      (∀ p ∈ al, p.2 ≤ a) ∧ (∀ p ∈ al, p.2 = a → r ≤ p.1) := by
  obtain ⟨⟨v, a0⟩, rest, rfl⟩ : ∃ q rest, al = q :: rest := by
    cases al with
    | nil => exact absurd rfl hne
    | cons q rest => exact ⟨q, rest, rfl⟩
  have ha0 : a0 ≠ 1 := h1 _ (List.mem_cons_self _ _)
  have hgt : (-1 : ℚ) < a0 :=
    lt_of_lt_of_le (by norm_num) (hnn _ (List.mem_cons_self _ _))
  have hstep : gdvLoop ((v, a0) :: rest) (-1) none = gdvLoop rest a0 (some v) := by
    simp [gdvLoop, ha0, hgt]
  have hfold := gdvLoop_eq_foldl rest a0 v
    (fun p hp => h1 p (List.mem_cons_of_mem _ hp))
  obtain ⟨hmem, hge, hle, hall⟩ := foldl_pick_spec rest (v, a0)
  refine ⟨(List.foldl pick (v, a0) rest).1, (List.foldl pick (v, a0) rest).2,
    ?_, ?_, ?_, ?_⟩
  · rw [get_default_version_admin_ok t m ⟨some ((v, a0) :: rest)⟩ hm hresp]
    simp only [Option.getD_some]
    rw [hstep, hfold]
  · rw [Prod.mk.eta]
    rcases hmem with h | h
    · rw [h]; exact List.mem_cons_self _ _
    · exact List.mem_cons_of_mem _ h
  · intro p hp
    rcases List.mem_cons.mp hp with rfl | hp
    · exact hge
    · exact (hall p hp).1
  · intro p hp hpa
    rcases List.mem_cons.mp hp with rfl | hp
    · exact hle hpa.symm
    · exact (hall p hp).2 hpa


/-- Claim C2: an entry with allocation exactly 1 short-circuits the
scan — the first such entry in iteration order wins, whatever else the
map holds (allocations being non-negative, the TrafficSplit invariant) —
and an empty or absent allocation map fails with InvalidVersion. -/
theorem getDefaultVersion_full_allocation_and_empty :
    (∀ (t : AdminTransport) (m : String) (al : List (String × ℚ)),
      m ≠ "" → t.serviceGet m = .ok ⟨some al⟩ → (∀ p ∈ al, 0 ≤ p.2) →
      (∃ p ∈ al, p.2 = 1) →
      ∃ p, al.find? (fun q => decide (q.2 = 1)) = some p ∧
        get_default_version_admin t (some m) = .ok p.1) ∧
    (∀ (t : AdminTransport) (m : String),
      m ≠ "" → t.serviceGet m = .ok ⟨none⟩ →
      get_default_version_admin t (some m) = .error .invalidVersion) ∧
    (∀ (t : AdminTransport) (m : String),
      m ≠ "" → t.serviceGet m = .ok ⟨some []⟩ →
      get_default_version_admin t (some m) = .error .invalidVersion) := by
  refine ⟨?_, ?_, ?_⟩
  · intro t m al hm hresp hnn hex
    obtain ⟨p, hfind, hloop⟩ := gdvLoop_find_one al (-1) none hnn (fun _ => rfl) hex
    refine ⟨p, hfind, ?_⟩
    rw [get_default_version_admin_ok t m ⟨some al⟩ hm hresp]
    simp only [Option.getD_some]
    rw [hloop]
  · intro t m hm hresp
    rw [get_default_version_admin_ok t m ⟨none⟩ hm hresp]
    rfl
  · intro t m hm hresp
    rw [get_default_version_admin_ok t m ⟨some []⟩ hm hresp]
    rfl

/-- An admin transport witnessing concrete behaviours: a two-service
app, a suffix, and version metadata with five manual instances. -/
def sampleAdmin : AdminTransport where
  servicesList := .ok ["default", "other"]
  appsGet := .ok ⟨some "project.appspot.com"⟩
  serviceGet := fun _ => .ok ⟨some [("v2-beta", 1/2), ("v1-stable", 1/2)]⟩
  versionsList := fun _ => .ok ["v1", "v2"]
  versionGet := fun _ _ => .ok ⟨some ⟨some 5⟩⟩
  patchVersion := fun _ _ _ => .ok ()
  gaeService := "default"
  currentModule := "default"
  currentVersion := "v1"

/-- The tied traffic split of the specification's example. -/
def tieSplit : List (String × ℚ) := [("v2-beta", 1/2), ("v1-stable", 1/2)]

theorem getDefaultVersion_max_lex_tiebreak_witness :
    ∃ r a, get_default_version_admin sampleAdmin (some "default") = .ok r ∧
      (r, a) ∈ tieSplit ∧ (∀ p ∈ tieSplit, p.2 ≤ a) ∧
      (∀ p ∈ tieSplit, p.2 = a → r ≤ p.1) :=
  getDefaultVersion_max_lex_tiebreak sampleAdmin "default" tieSplit
    (by decide) rfl (by simp [tieSplit])
    (by intro p hp; simp [tieSplit] at hp; rcases hp with rfl | rfl <;> norm_num)
    (by intro p hp; simp [tieSplit] at hp; rcases hp with rfl | rfl <;> norm_num)

/-- A full-allocation split: v9 first, then the 1.0 entry. -/
def fullSplit : List (String × ℚ) := [("v9", 0), ("v1", 1)]

theorem getDefaultVersion_full_allocation_and_empty_witness :
    (∃ p, fullSplit.find? (fun q => decide (q.2 = 1)) = some p ∧
      get_default_version_admin
        { sampleAdmin with serviceGet := fun _ => .ok ⟨some fullSplit⟩ }
        (some "default") = .ok p.1) ∧
    get_default_version_admin
      { sampleAdmin with serviceGet := fun _ => .ok ⟨none⟩ }
      (some "default") = .error .invalidVersion :=
  ⟨getDefaultVersion_full_allocation_and_empty.1
      { sampleAdmin with serviceGet := fun _ => .ok ⟨some fullSplit⟩ }
      "default" fullSplit (by decide) rfl
      (by intro p hp; simp [fullSplit] at hp; rcases hp with rfl | rfl <;> norm_num)
      ⟨("v1", 1), by simp [fullSplit], rfl⟩,
    getDefaultVersion_full_allocation_and_empty.2.1
      { sampleAdmin with serviceGet := fun _ => .ok ⟨none⟩ } "default"
      (by decide) rfl⟩


theorem construct_hostname_two (a b : String) :
    construct_hostname [.str a, .opt (some b)] = .ok (a ++ "." ++ b) := rfl

theorem construct_hostname_three (a b c : String) :
    construct_hostname [.str a, .str b, .opt (some c)] =
      .ok (a ++ "." ++ (b ++ "." ++ c)) := rfl

theorem construct_hostname_inst3 (i a b : String) :
    construct_hostname [.inst (.str i), .str a, .opt (some b)] =
      .ok (i ++ "." ++ (a ++ "." ++ b)) := rfl

theorem construct_hostname_inst4 (i a b c : String) :
    construct_hostname [.inst (.str i), .str a, .str b, .opt (some c)] =
      .ok (i ++ "." ++ (a ++ "." ++ (b ++ "." ++ c))) := rfl

theorem construct_hostname_int_head (n : Int) (rest : List HostPart) :
    construct_hostname (.inst (.int n) :: rest) = .error .typeError := rfl

/-- Claim C7: with an explicit version and no instance against a
multi-service app, the hostname is version.module.suffix, returned
without consulting the module's version list (the transport's
`versionsList` and `versionGet` fields are arbitrary here, so no
version-existence read can have been involved). -/
theorem getHostname_explicit_version_trusted
    (t : AdminTransport) (svcs : List String) (suffix rm : String)
    (module : Option String) (v : String)
    (hsv : t.servicesList = .ok svcs)
    (happ : t.appsGet = .ok ⟨some suffix⟩)
    (hrm : pyOr module t.currentModule = rm)
    (hmem : rm ∈ svcs)
    (hns : ¬(svcs.length = 1 ∧ svcs[0]? = some "default")) :
    get_hostname_admin t module (some v) none =
      .ok (v ++ "." ++ rm ++ "." ++ suffix) := by
  simp only [get_hostname_admin, validateInstance, get_modules_admin, hsv, happ, hrm]
  simp [hmem, hns, construct_hostname_three, String.append_assoc]

/-- Claim C6: with no explicit version and no instance against a
multi-service app, the target module's version list decides: the
current identity's version is used when listed, otherwise the version
segment is omitted. -/
theorem getHostname_default_version_fallback
    (t : AdminTransport) (svcs vlist : List String) (suffix rm : String)
    (module : Option String)
    (hsv : t.servicesList = .ok svcs)
    (happ : t.appsGet = .ok ⟨some suffix⟩)
    (hrm : pyOr module t.currentModule = rm)
    (hmem : rm ∈ svcs)
    (hns : ¬(svcs.length = 1 ∧ svcs[0]? = some "default"))
    (hrmne : rm ≠ "")
    (hvl : t.versionsList rm = .ok vlist) :
    (t.currentVersion ∈ vlist →
      get_hostname_admin t module none none =
        .ok (t.currentVersion ++ "." ++ rm ++ "." ++ suffix)) ∧
    (t.currentVersion ∉ vlist →
      get_hostname_admin t module none none = .ok (rm ++ "." ++ suffix)) := by
  have hgv : get_versions_admin t (some rm) = .ok vlist := by
    simp only [get_versions_admin, pyOr, if_neg hrmne, hvl]
  constructor
  · intro hin
    simp only [get_hostname_admin, validateInstance, get_modules_admin, hsv, happ, hrm]
    simp [hmem, hns, hgv, hin, construct_hostname_three, String.append_assoc, pyOr]
  · intro hout
    simp only [get_hostname_admin, validateInstance, get_modules_admin, hsv, happ, hrm]
    simp [hmem, hns, hgv, hout, construct_hostname_two, String.append_assoc, pyOr]


/-- Claim C5 (amended): single-service app named `default`.  A target
module other than `default` fails with InvalidModule; with no instance
the hostname is version.suffix (module omitted); with the instance
supplied as a nonempty decimal string it is instance.version.suffix.
An instance supplied as the Python integer 0 is falsy and is treated as
absent, and a positive integer instance makes the join raise TypeError,
which is where the claim as frozen fails. -/
theorem getHostname_single_service
    (t : AdminTransport) (suffix rm : String) (module version : Option String)
    (hsv : t.servicesList = .ok ["default"])
    (happ : t.appsGet = .ok ⟨some suffix⟩)
    (hrm : pyOr module t.currentModule = rm) :
    (rm ≠ "default" → ∀ instanceArg, validateInstance instanceArg = .ok () →
      get_hostname_admin t module version instanceArg = .error .invalidModule) ∧
    (rm = "default" →
      get_hostname_admin t module version none =
        .ok (pyOr version t.currentVersion ++ "." ++ suffix)) ∧
    (rm = "default" → ∀ (s : String) (i : Int),
      pyParseInt s = some i → 0 ≤ i → s ≠ "" →
      get_hostname_admin t module version (some (.str s)) =
        .ok (s ++ "." ++ (pyOr version t.currentVersion ++ "." ++ suffix))) ∧
    (rm = "default" →
      get_hostname_admin t module version (some (.int 0)) =
        .ok (pyOr version t.currentVersion ++ "." ++ suffix)) ∧
    (rm = "default" → ∀ n : Int, 0 < n →
      get_hostname_admin t module version (some (.int n)) =
        .error .typeError) := by
  refine ⟨?_, ?_, ?_, ?_, ?_⟩
  · intro hne instanceArg hval
    simp only [get_hostname_admin, hval, get_modules_admin, hsv, happ, hrm]
    simp [hne]
  · intro heq
    simp only [get_hostname_admin, validateInstance, get_modules_admin, hsv, happ, hrm, heq]
    simp [construct_hostname_two]
  · intro heq s i hparse hnn hne
    have hval : validateInstance (some (.str s)) = .ok () := by
      simp [validateInstance, pyIntOf, hparse, not_lt.mpr hnn]
    have htr : truthy (.str s) = true := by simp [truthy, hne]
    simp only [get_hostname_admin, hval, get_modules_admin, hsv, happ, hrm, heq]
    simp [htr, construct_hostname_inst3]
  · intro heq
    have hval : validateInstance (some (.int 0)) = .ok () := by
      simp [validateInstance, pyIntOf]
    simp only [get_hostname_admin, hval, get_modules_admin, hsv, happ, hrm, heq]
    simp [truthy, construct_hostname_two]
  · intro heq n hpos
    have hval : validateInstance (some (.int n)) = .ok () := by
      simp [validateInstance, pyIntOf, not_lt.mpr (le_of_lt hpos)]
    have htr : truthy (.int n) = true := by
      simp [truthy]; exact ne_of_gt hpos
    simp only [get_hostname_admin, hval, get_modules_admin, hsv, happ, hrm, heq]
    simp [htr, construct_hostname_int_head]

/-- A single-service transport for concrete evaluation. -/
def singleService : AdminTransport :=
  { sampleAdmin with servicesList := .ok ["default"] }

/-- Claim C5 counterexample: the instance `0` (a Python int) is
supplied, yet the hostname comes back without the instance segment —
`v1.project.appspot.com` instead of the claimed
`0.v1.project.appspot.com`. -/
theorem getHostname_single_service_int_zero_cex :
    get_hostname_admin singleService none none (some (.int 0)) =
        .ok "v1.project.appspot.com" ∧
      "v1.project.appspot.com" ≠ "0.v1.project.appspot.com" :=
  ⟨rfl, by decide⟩

theorem getHostname_single_service_witness :
    get_hostname_admin singleService (some "other") (some "v1") none =
        .error .invalidModule ∧
      get_hostname_admin singleService none none none =
        .ok ("v1" ++ "." ++ "project.appspot.com") ∧
      get_hostname_admin singleService none none (some (.str "3")) =
        .ok ("3" ++ "." ++ ("v1" ++ "." ++ "project.appspot.com")) ∧
      get_hostname_admin singleService none none (some (.int 2)) =
        .error .typeError :=
  ⟨(getHostname_single_service singleService "project.appspot.com" "other"
      (some "other") (some "v1") rfl rfl rfl).1 (by decide) none rfl,
    (getHostname_single_service singleService "project.appspot.com" "default"
      none none rfl rfl rfl).2.1 rfl,
    (getHostname_single_service singleService "project.appspot.com" "default"
      none none rfl rfl rfl).2.2.1 rfl "3" 3 rfl (by decide) (by decide),
    (getHostname_single_service singleService "project.appspot.com" "default"
      none none rfl rfl rfl).2.2.2.2 rfl 2 (by decide)⟩


/-- Claim C4 (amended): instance-bounded addressing against a
multi-service app.  Without MANUAL scaling the call fails with
InvalidInstances; with the index at or past the instance count it fails
with InvalidInstances; below the count it returns
instance.version.module.suffix when the instance was supplied as a
decimal string.  (Supplied as a Python int, the bounds checks behave
identically but the success join raises TypeError, which is where the
claim as frozen fails.) -/
theorem getHostname_instance_bounded
    (t : AdminTransport) (svcs : List String) (suffix rm rv : String)
    (module version : Option String) (vd : VersionDetails)
    (hsv : t.servicesList = .ok svcs)
    (happ : t.appsGet = .ok ⟨some suffix⟩)
    (hrm : pyOr module t.currentModule = rm)
    (hrv : pyOr version t.currentVersion = rv)
    (hmem : rm ∈ svcs)
    (hns : ¬(svcs.length = 1 ∧ svcs[0]? = some "default"))
    (hvg : t.versionGet rm rv = .ok vd) :
    (∀ inst i, pyIntOf inst = some i → 0 ≤ i → vd.manualScaling = none →
      get_hostname_admin t module version (some inst) = .error .invalidInstances) ∧
    (∀ inst i ms, pyIntOf inst = some i → 0 ≤ i → vd.manualScaling = some ms →
      ms.instances.getD 0 ≤ i →
      get_hostname_admin t module version (some inst) = .error .invalidInstances) ∧
    (∀ (s : String) (i : Int) ms, pyParseInt s = some i → 0 ≤ i →
      vd.manualScaling = some ms → i < ms.instances.getD 0 →
      get_hostname_admin t module version (some (.str s)) =
        .ok (s ++ "." ++ (rv ++ "." ++ (rm ++ "." ++ suffix)))) ∧
    (∀ (n : Int) ms, 0 ≤ n → vd.manualScaling = some ms →
      n < ms.instances.getD 0 →
      get_hostname_admin t module version (some (.int n)) =
        .error .typeError) := by
  refine ⟨?_, ?_, ?_, ?_⟩
  · intro inst i hio hnn hms
    have hval : validateInstance (some inst) = .ok () := by
      simp [validateInstance, hio, not_lt.mpr hnn]
    simp only [get_hostname_admin, hval, get_modules_admin, hsv, happ, hrm, hrv, hvg, hms]
    simp [hmem, hns]
  · intro inst i ms hio hnn hms hge
    have hval : validateInstance (some inst) = .ok () := by
      simp [validateInstance, hio, not_lt.mpr hnn]
    simp only [get_hostname_admin, hval, get_modules_admin, hsv, happ, hrm, hrv, hvg, hms, hio]
    simp [hmem, hns, hge]
  · intro s i ms hparse hnn hms hlt
    have hio : pyIntOf (.str s) = some i := hparse
    have hval : validateInstance (some (.str s)) = .ok () := by
      simp [validateInstance, hio, not_lt.mpr hnn]
    simp only [get_hostname_admin, hval, get_modules_admin, hsv, happ, hrm, hrv, hvg, hms, hio]
    simp [hmem, hns, not_le.mpr hlt, construct_hostname_inst4]
  · intro n ms hnn hms hlt
    have hval : validateInstance (some (.int n)) = .ok () := by
      simp [validateInstance, pyIntOf, not_lt.mpr hnn]
    simp only [get_hostname_admin, hval, get_modules_admin, hsv, happ, hrm, hrv, hvg, hms]
    simp [hmem, hns, not_le.mpr hlt, pyIntOf, construct_hostname_int_head]

/-- Claim C4 counterexample: `instance` supplied as the Python int 2
against five manual instances on identity (default, v1): the source
reaches `".".join((2, 'v1', 'default', suffix))`, which raises
TypeError instead of returning `2.v1.default.project.appspot.com`. -/
theorem getHostname_instance_int_cex :
    get_hostname_admin sampleAdmin none none (some (.int 2)) =
      .error .typeError := rfl

theorem getHostname_instance_bounded_witness :
    get_hostname_admin
        { sampleAdmin with versionGet := fun _ _ => .ok ⟨none⟩ }
        none none (some (.str "1")) = .error .invalidInstances ∧
    get_hostname_admin sampleAdmin none none (some (.str "5")) =
        .error .invalidInstances ∧
    get_hostname_admin sampleAdmin none none (some (.str "2")) =
        .ok ("2" ++ "." ++ ("v1" ++ "." ++ ("default" ++ "." ++ "project.appspot.com"))) ∧
    get_hostname_admin sampleAdmin none none (some (.int 2)) =
        .error .typeError :=
  ⟨(getHostname_instance_bounded
      { sampleAdmin with versionGet := fun _ _ => .ok ⟨none⟩ }
      ["default", "other"] "project.appspot.com" "default" "v1" none none
      ⟨none⟩ rfl rfl rfl rfl (by decide) (by decide) rfl).1
      (.str "1") 1 rfl (by decide) rfl,
    (getHostname_instance_bounded sampleAdmin
      ["default", "other"] "project.appspot.com" "default" "v1" none none
      ⟨some ⟨some 5⟩⟩ rfl rfl rfl rfl (by decide) (by decide) rfl).2.1
      (.str "5") 5 ⟨some 5⟩ rfl (by decide) rfl (by decide),
    (getHostname_instance_bounded sampleAdmin
      ["default", "other"] "project.appspot.com" "default" "v1" none none
      ⟨some ⟨some 5⟩⟩ rfl rfl rfl rfl (by decide) (by decide) rfl).2.2.1
      "2" 2 ⟨some 5⟩ rfl (by decide) rfl (by decide),
    (getHostname_instance_bounded sampleAdmin
      ["default", "other"] "project.appspot.com" "default" "v1" none none
      ⟨some ⟨some 5⟩⟩ rfl rfl rfl rfl (by decide) (by decide) rfl).2.2.2
      2 ⟨some 5⟩ (by decide) rfl (by decide)⟩


theorem getHostname_explicit_version_trusted_witness :
    get_hostname_admin
        { sampleAdmin with servicesList := .ok ["default", "other", "foo"] }
        (some "foo") (some "v2") none =
      .ok ("v2" ++ "." ++ "foo" ++ "." ++ "project.appspot.com") :=
  getHostname_explicit_version_trusted
    { sampleAdmin with servicesList := .ok ["default", "other", "foo"] }
    ["default", "other", "foo"] "project.appspot.com" "foo" (some "foo") "v2"
    rfl rfl rfl (by decide) (by decide)

theorem getHostname_default_version_fallback_witness :
    (get_hostname_admin sampleAdmin (some "other") none none =
      .ok ("v1" ++ "." ++ "other" ++ "." ++ "project.appspot.com")) ∧
    (get_hostname_admin
        { sampleAdmin with versionsList := fun _ => .ok ["v2", "v3"] }
        (some "other") none none =
      .ok ("other" ++ "." ++ "project.appspot.com")) :=
  ⟨(getHostname_default_version_fallback sampleAdmin ["default", "other"]
      ["v1", "v2"] "project.appspot.com" "other" (some "other")
      rfl rfl rfl (by decide) (by decide) (by decide) rfl).1 (by decide),
    (getHostname_default_version_fallback
      { sampleAdmin with versionsList := fun _ => .ok ["v2", "v3"] }
      ["default", "other"] ["v2", "v3"] "project.appspot.com" "other"
      (some "other") rfl rfl rfl (by decide) (by decide) (by decide) rfl).2
      (by decide)⟩

/-- Claim C3 (amended): in the admin `get_hostname`, the two late read
branches (version metadata for an instance, version list when no
version was given) translate a 404 into InvalidModule and everything
else through the status taxonomy; but the initial block does not — a
failure of the app-metadata read goes through the plain mapper, so its
404 becomes InvalidVersion, and a 404 of the service-list read surfaces
as the generic Error. -/
theorem getHostname_read_error_mapping :
    (∀ (t : AdminTransport) (module version : Option String)
        (instanceArg : Option PyInst) (e : HttpErr),
      validateInstance instanceArg = .ok () → t.servicesList = .error e →
      get_hostname_admin t module version instanceArg =
        .error (if e.status = 404 then Err.genericError
          else if e.status = 400 then Err.invalidInstances
          else if 500 ≤ e.status then Err.transientError
          else Err.genericError)) ∧
    (∀ (t : AdminTransport) (module version : Option String)
        (instanceArg : Option PyInst) (svcs : List String) (e : HttpErr),
      validateInstance instanceArg = .ok () → t.servicesList = .ok svcs →
      t.appsGet = .error e →
      get_hostname_admin t module version instanceArg =
        .error (if e.status = 400 then Err.invalidInstances
          else if e.status = 404 then Err.invalidVersion
          else if 500 ≤ e.status then Err.transientError
          else Err.genericError)) ∧
    (∀ (t : AdminTransport) (module version : Option String)
        (svcs : List String) (resp : AppResp) (rm rv : String)
        (inst : PyInst) (i : Int) (e : HttpErr),
      t.servicesList = .ok svcs → t.appsGet = .ok resp →
      pyOr module t.currentModule = rm → pyOr version t.currentVersion = rv →
      rm ∈ svcs → ¬(svcs.length = 1 ∧ svcs[0]? = some "default") →
      pyIntOf inst = some i → 0 ≤ i → t.versionGet rm rv = .error e →
      get_hostname_admin t module version (some inst) =
        .error (if e.status = 404 then Err.invalidModule
          else if e.status = 400 then Err.invalidInstances
          else if 500 ≤ e.status then Err.transientError
          else Err.genericError)) ∧
    (∀ (t : AdminTransport) (module : Option String)
        (svcs : List String) (resp : AppResp) (rm : String) (e : HttpErr),
      t.servicesList = .ok svcs → t.appsGet = .ok resp →
      pyOr module t.currentModule = rm → rm ∈ svcs →
      ¬(svcs.length = 1 ∧ svcs[0]? = some "default") → rm ≠ "" →
      t.versionsList rm = .error e →
      get_hostname_admin t module none none =
        .error (if e.status = 404 then Err.invalidModule
          else if e.status = 400 then Err.invalidInstances
          else if 500 ≤ e.status then Err.transientError
          else Err.genericError)) := by
  refine ⟨?_, ?_, ?_, ?_⟩
  · intro t module version instanceArg e hval hsv
    simp only [get_hostname_admin, hval, get_modules_admin, hsv]
    by_cases h4 : e.status = 404 <;> simp [h4, raise_error]
  · intro t module version instanceArg svcs e hval hsv happ
    simp only [get_hostname_admin, hval, get_modules_admin, hsv, happ]
    simp [raise_error]
  · intro t module version svcs resp rm rv inst i e hsv happ hrm hrv hmem hns hio hnn hvg
    have hval : validateInstance (some inst) = .ok () := by
      simp [validateInstance, hio, not_lt.mpr hnn]
    simp only [get_hostname_admin, hval, get_modules_admin, hsv, happ, hrm, hrv, hvg]
    by_cases h4 : e.status = 404 <;> simp [hmem, hns, h4, raise_error]
  · intro t module svcs resp rm e hsv happ hrm hmem hns hrmne hvl
    have hgv : get_versions_admin t (some rm) =
        .error (if e.status = 404 then Err.invalidModule else raise_error e) := by
      simp only [get_versions_admin, pyOr, if_neg hrmne, hvl]
      by_cases h4 : e.status = 404 <;> simp [h4]
    simp only [get_hostname_admin, validateInstance, get_modules_admin, hsv, happ, hrm]
    by_cases h4 : e.status = 404 <;> simp [hmem, hns, hgv, h4, raise_error]

/-- Claim C3 counterexample: a 404 from the app-metadata read inside
`get_hostname`'s first transport block surfaces as InvalidVersion, not
the InvalidModule the claim requires of every read branch. -/
theorem getHostname_app_read_404_cex :
    get_hostname_admin { sampleAdmin with appsGet := .error ⟨404⟩ }
        none none none = .error .invalidVersion ∧
      Err.invalidVersion ≠ Err.invalidModule :=
  ⟨rfl, by decide⟩

theorem getHostname_read_error_mapping_witness :
    get_hostname_admin { sampleAdmin with appsGet := .error ⟨404⟩ }
        none none none =
      .error (if (404 : Nat) = 400 then Err.invalidInstances
        else if (404 : Nat) = 404 then Err.invalidVersion
        else if 500 ≤ (404 : Nat) then Err.transientError
        else Err.genericError) :=
  getHostname_read_error_mapping.2.1
    { sampleAdmin with appsGet := .error ⟨404⟩ } none none none
    ["default", "other"] ⟨404⟩ rfl rfl rfl


/-- Claim C8 (amended): only the admin backend validates the instance
argument locally.  On the admin path a non-parsing or negative instance
fails with InvalidInstances whatever the transport holds (no read is
consulted); on the legacy path the instance is forwarded to the RPC
unchecked, so the outcome is whatever the backend answers (a server-side
INVALID_INSTANCES code maps to InvalidInstancesError). -/
theorem getHostname_instance_validation_by_backend :
    (∀ (lt : LegacyTransport) (t : AdminTransport)
        (module version : Option String) (inst : PyInst),
      pyIntOf inst = none →
      get_hostname .admin lt t module version (some inst) =
        .error .invalidInstances) ∧
    (∀ (lt : LegacyTransport) (t : AdminTransport)
        (module version : Option String) (inst : PyInst) (i : Int),
      pyIntOf inst = some i → i < 0 →
      get_hostname .admin lt t module version (some inst) =
        .error .invalidInstances) ∧
    (∀ (lt : LegacyTransport) (t : AdminTransport)
        (module version : Option String) (inst : PyInst) (h : String),
      lt.getHostnameRpc = .ok h →
      get_hostname .legacy lt t module version (some inst) = .ok h) ∧
    (∀ (lt : LegacyTransport) (t : AdminTransport)
        (module version : Option String) (inst : PyInst),
      lt.getHostnameRpc = .error ⟨.invalid_instances⟩ →
      get_hostname .legacy lt t module version (some inst) =
        .error .invalidInstances) := by
  refine ⟨?_, ?_, ?_, ?_⟩
  · intro lt t module version inst hio
    simp [get_hostname, get_hostname_admin, validateInstance, hio]
  · intro lt t module version inst i hio hneg
    simp [get_hostname, get_hostname_admin, validateInstance, hio, hneg]
  · intro lt t module version inst h hrpc
    simp [get_hostname, get_hostname_legacy, legacyCall, hrpc]
  · intro lt t module version inst hrpc
    simp [get_hostname, get_hostname_legacy, legacyCall, hrpc,
      CheckAsyncResult, MODULE_SERVICE_ERROR_MAP]

/-- A legacy transport whose GetHostname RPC answers a hostname. -/
def legacyOkHost : LegacyTransport where
  getModulesRpc := .ok []
  getVersionsRpc := .ok []
  getDefaultVersionRpc := .ok ""
  getNumInstancesRpc := .ok 0
  setNumInstancesRpc := .ok ()
  startModuleRpc := .ok ()
  stopModuleRpc := .ok ()
  getHostnameRpc := .ok "abc"

/-- Claim C8 counterexample: under the legacy backend,
`get_hostname(instance="foo")` does not fail locally — the request goes
to the RPC and the call succeeds with the backend's answer. -/
theorem getHostname_legacy_no_local_validation_cex :
    get_hostname .legacy legacyOkHost sampleAdmin none none
        (some (.str "foo")) = .ok "abc" ∧
      (Except.ok "abc" : Except Err String) ≠ .error .invalidInstances :=
  ⟨rfl, fun h => Except.noConfusion h⟩

theorem getHostname_instance_validation_witness :
    get_hostname .admin legacyOkHost sampleAdmin none none
        (some (.str "foo")) = .error .invalidInstances ∧
      get_hostname .legacy legacyOkHost sampleAdmin none none
        (some (.str "foo")) = .ok "abc" :=
  ⟨getHostname_instance_validation_by_backend.1 legacyOkHost sampleAdmin
      none none (.str "foo") rfl,
    getHostname_instance_validation_by_backend.2.2.1 legacyOkHost sampleAdmin
      none none (.str "foo") "abc" rfl⟩

/-- Claim C9: starting an already-started version (or stopping an
already-stopped one) resolves successfully under both backends: the
legacy result checker swallows UNEXPECTED_STATE for start/stop, and the
admin backend surfaces the (successful) no-op patch response as
success. -/
theorem startStop_already_in_state :
    (∀ (lt : LegacyTransport) (t : AdminTransport)
        (module version : Option String),
      lt.startModuleRpc = .error ⟨.unexpected_state⟩ →
      start_version .legacy lt t module version = .ok ()) ∧
    (∀ (lt : LegacyTransport) (t : AdminTransport)
        (module version : Option String),
      lt.stopModuleRpc = .error ⟨.unexpected_state⟩ →
      stop_version .legacy lt t module version = .ok ()) ∧
    (∀ (lt : LegacyTransport) (t : AdminTransport)
        (module version : Option String),
      t.patchVersion (module.getD t.currentModule)
          (version.getD t.currentVersion) (.servingStatus "SERVING") = .ok () →
      start_version .admin lt t module version = .ok ()) ∧
    (∀ (lt : LegacyTransport) (t : AdminTransport)
        (module version : Option String),
      t.patchVersion (module.getD t.currentModule)
          (version.getD t.currentVersion) (.servingStatus "STOPPED") = .ok () →
      stop_version .admin lt t module version = .ok ()) := by
  refine ⟨?_, ?_, ?_, ?_⟩
  · intro lt t module version hrpc
    simp [start_version, start_version_async_legacy, legacyCall, hrpc,
      CheckAsyncResult]
  · intro lt t module version hrpc
    simp [stop_version, stop_version_async_legacy, legacyCall, hrpc,
      CheckAsyncResult]
  · intro lt t module version hp
    simp [start_version, start_version_admin, hp]
  · intro lt t module version hp
    simp [stop_version, stop_version_admin, hp]

/-- A legacy transport that reports UNEXPECTED_STATE for start and
stop. -/
def legacyAlreadyInState : LegacyTransport :=
  { legacyOkHost with
    startModuleRpc := .error ⟨.unexpected_state⟩
    stopModuleRpc := .error ⟨.unexpected_state⟩ }

theorem startStop_already_in_state_witness :
    start_version .legacy legacyAlreadyInState sampleAdmin
        (some "module1") (some "v1") = .ok () ∧
      stop_version .legacy legacyAlreadyInState sampleAdmin
        (some "module1") (some "v1") = .ok () ∧
      start_version .admin legacyAlreadyInState sampleAdmin
        (some "module1") (some "v1") = .ok () ∧
      stop_version .admin legacyAlreadyInState sampleAdmin
        (some "module1") (some "v1") = .ok () :=
  ⟨startStop_already_in_state.1 legacyAlreadyInState sampleAdmin
      (some "module1") (some "v1") rfl,
    startStop_already_in_state.2.1 legacyAlreadyInState sampleAdmin
      (some "module1") (some "v1") rfl,
    startStop_already_in_state.2.2.1 legacyAlreadyInState sampleAdmin
      (some "module1") (some "v1") rfl,
    startStop_already_in_state.2.2.2 legacyAlreadyInState sampleAdmin
      (some "module1") (some "v1") rfl⟩


/-- `CheckAsyncResult` can only produce UnexpectedStateError when
UNEXPECTED_STATE is on the expected (mapped) list. -/
theorem CheckAsyncResult_ne_unexpectedState (r : Except ApplicationError Unit)
    (expected ignored : List ACode)
    (hexp : ACode.unexpected_state ∉ expected) :
    CheckAsyncResult r expected ignored ≠ .error .unexpectedState := by
  cases r with
  | ok v => simp [CheckAsyncResult]
  | error e =>
    cases hc : e.application_error with
    | unexpected_state =>
      simp only [CheckAsyncResult, hc]
      split_ifs with h1 <;> simp
    | invalid_module =>
      simp only [CheckAsyncResult, hc, MODULE_SERVICE_ERROR_MAP]
      split_ifs <;> simp
    | invalid_version =>
      simp only [CheckAsyncResult, hc, MODULE_SERVICE_ERROR_MAP]
      split_ifs <;> simp
    | invalid_instances =>
      simp only [CheckAsyncResult, hc, MODULE_SERVICE_ERROR_MAP]
      split_ifs <;> simp
    | transient_error =>
      simp only [CheckAsyncResult, hc, MODULE_SERVICE_ERROR_MAP]
      split_ifs <;> simp
    | other code =>
      simp only [CheckAsyncResult, hc, MODULE_SERVICE_ERROR_MAP]
      split_ifs <;> simp

/-- A legacy operation never raises UnexpectedStateError when its
expected list omits UNEXPECTED_STATE. -/
theorem legacyCall_ne_unexpectedState {α : Type}
    (rpc : Except ApplicationError α) (expected ignored : List ACode) (d : α)
    (hexp : ACode.unexpected_state ∉ expected) :
    legacyCall rpc expected ignored d ≠ .error .unexpectedState := by
  unfold legacyCall
  cases rpc with
  | ok v => simp
  | error e =>
    intro h
    have hch := CheckAsyncResult_ne_unexpectedState (.error e) expected ignored hexp
    cases hcr : CheckAsyncResult (.error e) expected ignored with
    | ok u => simp [hcr] at h
    | error err =>
      simp [hcr] at h
      exact hch (h ▸ hcr)

/-- Claim C10: no operation ever raises UnexpectedStateError.  Every
legacy result checker omits UNEXPECTED_STATE from its expected list —
for start/stop it sits only on the ignored list, where it is swallowed
into success — and the admin backend's HTTP-status mapper cannot
produce it. -/
theorem unexpectedState_never_raised :
    (∀ e : HttpErr, raise_error e ≠ .unexpectedState) ∧
    (∀ lt, get_modules_legacy lt ≠ .error .unexpectedState) ∧
    (∀ lt m, get_versions_legacy lt m ≠ .error .unexpectedState) ∧
    (∀ lt m, get_default_version_legacy lt m ≠ .error .unexpectedState) ∧
    (∀ lt m v, get_num_instances_legacy lt m v ≠ .error .unexpectedState) ∧
    (∀ lt n m v,
      set_num_instances_async_legacy lt n m v ≠ .error .unexpectedState) ∧
    (∀ lt m v, start_version_async_legacy lt m v ≠ .error .unexpectedState) ∧
    (∀ lt m v, stop_version_async_legacy lt m v ≠ .error .unexpectedState) ∧
    (∀ lt m v i, get_hostname_legacy lt m v i ≠ .error .unexpectedState) ∧
    (∀ lt m v, lt.startModuleRpc = .error ⟨.unexpected_state⟩ →
      start_version_async_legacy lt m v = .ok ()) ∧
    (∀ lt m v, lt.stopModuleRpc = .error ⟨.unexpected_state⟩ →
      stop_version_async_legacy lt m v = .ok ()) := by
  refine ⟨?_, ?_, ?_, ?_, ?_, ?_, ?_, ?_, ?_, ?_, ?_⟩
  · intro e
    unfold raise_error
    split_ifs <;> simp
  · intro lt
    exact legacyCall_ne_unexpectedState _ _ _ _ (by decide)
  · intro lt m
    exact legacyCall_ne_unexpectedState _ _ _ _ (by decide)
  · intro lt m
    exact legacyCall_ne_unexpectedState _ _ _ _ (by decide)
  · intro lt m v
    exact legacyCall_ne_unexpectedState _ _ _ _ (by decide)
  · intro lt n m v
    exact legacyCall_ne_unexpectedState _ _ _ _ (by decide)
  · intro lt m v
    exact legacyCall_ne_unexpectedState _ _ _ _ (by decide)
  · intro lt m v
    exact legacyCall_ne_unexpectedState _ _ _ _ (by decide)
  · intro lt m v i
    exact legacyCall_ne_unexpectedState _ _ _ _ (by decide)
  · intro lt m v hrpc
    simp [start_version_async_legacy, legacyCall, hrpc, CheckAsyncResult]
  · intro lt m v hrpc
    simp [stop_version_async_legacy, legacyCall, hrpc, CheckAsyncResult]

theorem unexpectedState_never_raised_witness :
    raise_error ⟨404⟩ ≠ .unexpectedState ∧
      get_hostname_legacy legacyOkHost none none none ≠
        .error .unexpectedState ∧
      start_version_async_legacy legacyAlreadyInState (some "m") (some "v") =
        .ok () :=
  ⟨unexpectedState_never_raised.1 ⟨404⟩,
    unexpectedState_never_raised.2.2.2.2.2.2.2.2.1 legacyOkHost none none none,
    unexpectedState_never_raised.2.2.2.2.2.2.2.2.2.1 legacyAlreadyInState
      (some "m") (some "v") rfl⟩

end ModulesApi
